import Mathlib

/-!
Shallow embedding of the `useFilter` hook (src/index.mjs) of the
Filippo-Dembech/useFilter repository.

Items have type `α`; payloads are modelled as `Option β`, where `none`
stands for the JavaScript `null` (the value stored at initialization and
the default argument of `apply` / `remove` / `toggle`).  A filter
predicate is invoked as `predicate item payload`, mirroring
`filter.filter(item, filter.payload)` in the source.

The React state pair (`filters`, `filteredList`) together with the
`originalList` ref is modelled as an explicit record `ManagerState`;
each manager method becomes a pure state-transformer on that record.
`activate` in the source reads the current filters through a
`setFilters` updater and writes `filteredList` from them; in the
sequential embedding this is the function that recomputes
`filteredList` from the current `filters` field.
-/

namespace UseFilter

/-- A filter descriptor, as produced by the exported `filter(name, filter)`
factory: a name paired with a binary predicate. -/
structure FilterDescriptor (α β : Type) where
  name : String
  filter : α → Option β → Bool

/-- The exported `filter(name, filter)` factory from src/index.mjs. -/
def filter {α β : Type} (name : String) (f : α → Option β → Bool) :
    FilterDescriptor α β :=
  { name := name, filter := f }

/-- Internal per-descriptor filter state: the descriptor fields spread
together with `isActive` and `payload`, exactly as built in the
`useState` initializer of `useFilter`. -/
structure FilterState (α β : Type) where
  name : String
  filter : α → Option β → Bool
  isActive : Bool
  payload : Option β

/-- The whole mutable state of one `useFilter` instance: the `filters`
state, the `filteredList` state and the `originalList` ref. -/
structure ManagerState (α β : Type) where
  filters : List (FilterState α β)
  filteredList : List α
  originalList : List α

/-- Initialization performed by `useFilter({ list, filters })`:
every descriptor becomes an inactive entry with `payload = null`,
`filteredList` starts as `list`, and `originalList` captures `list`. -/
def useFilter {α β : Type} (list : List α) (fltrs : List (FilterDescriptor α β)) :
    ManagerState α β :=
  { filters := fltrs.map (fun f =>
      { name := f.name, filter := f.filter, isActive := false, payload := none }),
    filteredList := list,
    originalList := list }

/-- The internal helper `setActivityOf(filterName, payload, activity)`:
maps over the filters, replacing each entry whose name equals
`filterName` by a copy with `isActive := activity entry` and the new
payload. -/
def setActivityOf {α β : Type} (s : ManagerState α β) (filterName : String)
    (payload : Option β) (activity : FilterState α β → Bool) : ManagerState α β :=
  { s with filters := s.filters.map (fun f =>
      if f.name == filterName then
        { f with isActive := activity f, payload := payload }
      else f) }

/-- `manager.apply(filterName, payload = null)`. -/
def apply {α β : Type} (s : ManagerState α β) (filterName : String)
    (payload : Option β) : ManagerState α β :=
  setActivityOf s filterName payload (fun _ => true)

/-- `manager.remove(filterName, payload = null)`. -/
def remove {α β : Type} (s : ManagerState α β) (filterName : String)
    (payload : Option β) : ManagerState α β :=
  setActivityOf s filterName payload (fun _ => false)

/-- `manager.toggle(filterName, payload = null)`. -/
def toggle {α β : Type} (s : ManagerState α β) (filterName : String)
    (payload : Option β) : ManagerState α β :=
  setActivityOf s filterName payload (fun f => !f.isActive)

/-- `manager.reset()`: every entry gets `isActive := false`; the payload
field is not touched. -/
def reset {α β : Type} (s : ManagerState α β) : ManagerState α β :=
  { s with filters := s.filters.map (fun f => { f with isActive := false }) }

/-- `manager.activate()`: recomputes `filteredList` from
`originalList`, keeping the items on which every currently-active
entry's predicate, invoked with that entry's payload, returns true. -/
def activate {α β : Type} (s : ManagerState α β) : ManagerState α β :=
  { s with filteredList := s.originalList.filter (fun item =>
      (s.filters.filter (fun f => f.isActive)).all (fun f =>
        f.filter item f.payload)) }

/-- The `name?.toLowerCase()` call of `getFilter`, modelled
character-wise over the string's character list. -/
def lowerName (s : String) : String := String.mk (s.data.map Char.toLower)

/-- `getFilter(name)`: the `"all"` sentinel (compared case-insensitively
via `toLowerCase`) returns the whole filters list (`Sum.inl`); any other
name returns `filters.filter(f => f.name === name)[0]`, i.e. the head of
the exact-match sublist, which is absent (`none`) when nothing matches. -/
def getFilter {α β : Type} (s : ManagerState α β) (name : String) :
    List (FilterState α β) ⊕ Option (FilterState α β) :=
  if lowerName name == "all" then Sum.inl s.filters
  else Sum.inr (s.filters.filter (fun f => f.name == name)).head?

/-- One mutation request against the manager, for reasoning about
sequences of calls issued before an `activate()`. -/
inductive Op (β : Type) where
  | apply : String → Option β → Op β
  | remove : String → Option β → Op β
  | toggle : String → Option β → Op β
  | reset : Op β

/-- Run one mutation operation on the manager state. -/
def runOp {α β : Type} (s : ManagerState α β) : Op β → ManagerState α β
  | Op.apply n p => apply s n p
  | Op.remove n p => remove s n p
  | Op.toggle n p => toggle s n p
  | Op.reset => reset s

/-- Run a sequence of mutation operations, first to last. -/
def runOps {α β : Type} (s : ManagerState α β) : List (Op β) → ManagerState α β
  | [] => s
  | op :: ops => runOps (runOp s op) ops

/-- Concrete demonstration data: the publication years of the README
book list. -/
def booksYears : List Nat := [1997, 1937, 1949, 1960, 2011]

/-- Concrete demonstration descriptor: the README year filter. -/
def yearFilter : FilterDescriptor Nat Nat :=
  filter "year" (fun y _ => decide (y > 2000))

/-- Concrete demonstration manager state over `booksYears` with the
single `yearFilter` descriptor. -/
def demoState : ManagerState Nat Nat := useFilter booksYears [yearFilter]

/-- Mutation operations preserve the length of the filters list. -/
theorem runOps_filters_length {α β : Type} (ops : List (Op β)) (s : ManagerState α β) :
    (runOps s ops).filters.length = s.filters.length := by
  induction ops generalizing s with
  | nil => rfl
  | cons op ops ih =>
    rw [runOps, ih]
    cases op <;> simp [runOp, apply, remove, toggle, reset, setActivityOf]

/-- Mutation operations never touch the `originalList` ref. -/
theorem runOps_originalList {α β : Type} (ops : List (Op β)) (s : ManagerState α β) :
    (runOps s ops).originalList = s.originalList := by
  induction ops generalizing s with
  | nil => rfl
  | cons op ops ih =>
    rw [runOps, ih]
    cases op <;> rfl

/-- The head of the satisfying sublist is the first satisfying element. -/
theorem head_filter_eq_find {α : Type} (p : α → Bool) (l : List α) :
    (l.filter p).head? = l.find? p := by
  induction l with
  | nil => rfl
  | cons a l ih =>
    by_cases h : p a <;> simp [List.filter_cons, List.find?_cons, h, ih]

/-- C4: after initialization with source list `L` and descriptor list `D`,
every `FilterState` entry built from `D` has `isActive = false` and
`payload = null`, and the initial filtered output equals `L` unmodified. -/
theorem useFilter_initial_state {α β : Type} (L : List α)
    (D : List (FilterDescriptor α β)) :
    (∀ f ∈ (useFilter L D).filters, f.isActive = false ∧ f.payload = none)
    ∧ (useFilter L D).filteredList = L
    ∧ (useFilter L D).filters.length = D.length := by
  refine ⟨?_, rfl, by simp [useFilter]⟩
  intro f hf
  simp only [useFilter, List.mem_map] at hf
  obtain ⟨d, _, rfl⟩ := hf
  exact ⟨rfl, rfl⟩

/-- C3: `apply`, `remove`, `toggle` and `reset` leave the filtered output
unchanged; only an explicit `activate()` call recomputes it. -/
theorem mutations_leave_filtered_unchanged {α β : Type} (s : ManagerState α β)
    (n : String) (p q : Option β) :
    (apply s n p).filteredList = s.filteredList
    ∧ (remove s n p).filteredList = s.filteredList
    ∧ (toggle s n q).filteredList = s.filteredList
    ∧ (reset s).filteredList = s.filteredList :=
  ⟨rfl, rfl, rfl, rfl⟩

/-- C10: `activate()` leaves every `FilterState` entry (name, predicate,
`isActive`, payload) unchanged, and the original list unchanged — only
the filtered output is modified. -/
theorem activate_leaves_filters_unchanged {α β : Type} (s : ManagerState α β) :
    (activate s).filters = s.filters ∧ (activate s).originalList = s.originalList :=
  ⟨rfl, rfl⟩

/-- C9: toggling the same name twice in succession returns every entry's
`isActive` flag to its value before the first call, whatever payloads
the two calls carry. -/
theorem toggle_twice_involution {α β : Type} (s : ManagerState α β) (n : String)
    (p q : Option β) :
    (toggle (toggle s n p) n q).filters.map (fun f => f.isActive)
      = s.filters.map (fun f => f.isActive) := by
  simp only [toggle, setActivityOf, List.map_map]
  refine List.map_congr_left ?_
  intro f _
  by_cases h : f.name == n <;> simp [Function.comp, h]

/-- C5: `remove` and `toggle` overwrite the matching entry's payload with
the supplied argument (`none` when no payload is given) even while
deactivating, whereas `reset` deactivates every entry and leaves every
payload untouched. -/
theorem remove_toggle_overwrite_payload_reset_keeps {α β : Type}
    (s : ManagerState α β) (n : String) (p : Option β) :
    ((remove s n p).filters.map (fun f => f.payload)
        = s.filters.map (fun f => if f.name == n then p else f.payload))
    ∧ ((remove s n p).filters.map (fun f => f.isActive)
        = s.filters.map (fun f => if f.name == n then false else f.isActive))
    ∧ ((toggle s n p).filters.map (fun f => f.payload)
        = s.filters.map (fun f => if f.name == n then p else f.payload))
    ∧ ((reset s).filters.map (fun f => f.payload)
        = s.filters.map (fun f => f.payload))
    ∧ ((reset s).filters.map (fun f => f.isActive)
        = s.filters.map (fun _ => false)) := by
  refine ⟨?_, ?_, ?_, ?_, ?_⟩ <;>
  · simp only [remove, toggle, reset, setActivityOf, List.map_map]
    refine List.map_congr_left ?_
    intro f _
    by_cases h : f.name == n <;> simp [Function.comp, h]

/-- C1: `activate()` recomputes the filtered output as the subsequence of
the source list of items satisfying every active entry's predicate
(applied to the entry's payload); with zero active filters it yields the
full source list; the result is a sublist of the source, so order is
preserved. -/
theorem activate_intersects_active_predicates {α β : Type} (s : ManagerState α β) :
    (activate s).filteredList
      = s.originalList.filter (fun x =>
          decide (∀ f ∈ s.filters, f.isActive = true → f.filter x f.payload = true))
    ∧ ((∀ f ∈ s.filters, f.isActive = false) → (activate s).filteredList = s.originalList)
    ∧ (activate s).filteredList.Sublist s.originalList := by
  refine ⟨?_, ?_, List.filter_sublist _⟩
  · show s.originalList.filter _ = s.originalList.filter _
    refine List.filter_congr ?_
    intro x _
    rw [Bool.eq_iff_iff]
    simp only [List.all_eq_true, List.mem_filter, decide_eq_true_eq]
    constructor
    · intro hx f hf ha
      exact hx f ⟨hf, ha⟩
    · intro hx f hf
      exact hx f hf.1 hf.2
  · intro h
    show s.originalList.filter _ = s.originalList
    have hnil : s.filters.filter (fun f => f.isActive) = [] := by
      rw [List.filter_eq_nil_iff]
      intro f hf
      simp [h f hf]
    rw [hnil]
    simp

/-- C1 witness: on the demo manager, whose only filter is inactive,
activation returns the full source list. -/
theorem activate_intersects_active_predicates_witness :
    (activate demoState).filteredList = demoState.originalList :=
  (activate_intersects_active_predicates demoState).2.1 (by decide)

/-- C8: after any sequence of mutation operations, `reset()` followed by
`activate()` restores the filtered output to the original source list. -/
theorem reset_activate_restores_source {α β : Type} (L : List α)
    (D : List (FilterDescriptor α β)) (ops : List (Op β)) :
    (activate (reset (runOps (useFilter L D) ops))).filteredList = L := by
  have horig := runOps_originalList ops (useFilter L D)
  show ((reset (runOps (useFilter L D) ops)).originalList).filter _ = L
  have hnil : (reset (runOps (useFilter L D) ops)).filters.filter
      (fun f => f.isActive) = [] := by
    rw [List.filter_eq_nil_iff]
    intro f hf
    simp only [reset, List.mem_map] at hf
    obtain ⟨g, _, rfl⟩ := hf
    simp
  rw [hnil]
  simp only [List.all_nil, List.filter_true]
  exact horig

/-- C2: mutations issued before `activate()` are all visible to it: after
`apply a p1` then `apply b p2` on a fresh manager with the two distinct
filters `a` and `b`, activation filters the source list by both
predicates, not by a stale snapshot. -/
theorem activate_sees_all_prior_mutations {α β : Type} (L : List α) (a b : String)
    (pa pb : α → Option β → Bool) (p1 p2 : Option β) (hab : a ≠ b) :
    (activate (apply (apply (useFilter L [filter a pa, filter b pb]) a p1) b p2)).filteredList
      = L.filter (fun x => pa x p1 && pb x p2) := by
  have hba : b ≠ a := Ne.symm hab
  have hab1 : (a == b) = false := beq_eq_false_iff_ne.mpr hab
  have hab2 : (b == a) = false := beq_eq_false_iff_ne.mpr hba
  have h1 : apply (useFilter L [filter a pa, filter b pb]) a p1
      = { filters := [⟨a, pa, true, p1⟩, ⟨b, pb, false, none⟩],
          filteredList := L, originalList := L } := by
    simp [useFilter, filter, apply, setActivityOf, hab2, hba]
  have h2 : apply (apply (useFilter L [filter a pa, filter b pb]) a p1) b p2
      = { filters := [⟨a, pa, true, p1⟩, ⟨b, pb, true, p2⟩],
          filteredList := L, originalList := L } := by
    rw [h1]
    simp [apply, setActivityOf, hab1, hab]
  rw [h2]
  show L.filter _ = L.filter _
  refine List.filter_congr ?_
  intro x _
  show (pa x p1 && (pb x p2 && true)) = (pa x p1 && pb x p2)
  rw [Bool.and_true]

/-- C2 witness: applying the even filter then the greater-than-two filter
and activating keeps exactly the even numbers above two. -/
theorem activate_sees_all_prior_mutations_witness :
    (activate (apply (apply (useFilter [1, 2, 3, 4, 5, 6]
        [filter "a" (fun (n : Nat) (_ : Option Nat) => decide (n % 2 = 0)),
         filter "b" (fun (n : Nat) (_ : Option Nat) => decide (n > 2))])
        "a" none) "b" none)).filteredList = [4, 6] := by
  rw [activate_sees_all_prior_mutations _ "a" "b" _ _ none none (by decide)]
  decide

/-- C6: `apply`, `remove` and `toggle` with a name matching no entry are
silent no-ops: the whole manager state is unchanged, and a subsequent
`activate()` yields the same filtered output as without the call. -/
theorem unknown_name_noop {α β : Type} (s : ManagerState α β) (n : String)
    (p : Option β) (h : ∀ f ∈ s.filters, f.name ≠ n) :
    apply s n p = s ∧ remove s n p = s ∧ toggle s n p = s
    ∧ (activate (apply s n p)).filteredList = (activate s).filteredList := by
  have key : ∀ act : FilterState α β → Bool, setActivityOf s n p act = s := by
    intro act
    have hm : s.filters.map (fun f =>
        if f.name == n then { f with isActive := act f, payload := p } else f)
          = s.filters := by
      conv_rhs => rw [← List.map_id s.filters]
      refine List.map_congr_left ?_
      intro f hf
      simp [beq_eq_false_iff_ne.mpr (h f hf)]
    show { s with filters := _ } = s
    rw [hm]
  refine ⟨key _, key _, key _, ?_⟩
  rw [show apply s n p = s from key _]

/-- C6 witness: applying the undeclared name "x" on the demo manager
leaves the state exactly as it was. -/
theorem unknown_name_noop_witness : apply demoState "x" none = demoState :=
  (unknown_name_noop demoState "x" none (by decide)).1

/-- C7: `getFilter` returns the full current entry sequence when the name
lowercases to "all" — and after any mutation sequence that sequence still
has one entry per declared descriptor — and otherwise returns the first
exact (case-sensitive) name match, absent when nothing matches. -/
theorem getFilter_all_or_first_match {α β : Type} (s : ManagerState α β)
    (name : String) :
    (lowerName name = "all" → getFilter s name = Sum.inl s.filters)
    ∧ (lowerName name ≠ "all" →
        getFilter s name = Sum.inr (s.filters.find? (fun f => f.name == name)))
    ∧ (∀ (L : List α) (D : List (FilterDescriptor α β)) (ops : List (Op β)),
        getFilter (runOps (useFilter L D) ops) "all"
            = Sum.inl (runOps (useFilter L D) ops).filters
          ∧ (runOps (useFilter L D) ops).filters.length = D.length) := by
  refine ⟨?_, ?_, ?_⟩
  · intro h
    unfold getFilter
    rw [h]
    simp
  · intro h
    have hc : (lowerName name == "all") = false := beq_eq_false_iff_ne.mpr h
    unfold getFilter
    rw [hc]
    simp [head_filter_eq_find]
  · intro L D ops
    have hall : (lowerName "all" == "all") = true := by decide
    constructor
    · unfold getFilter
      rw [hall]
      simp
    · rw [runOps_filters_length]
      simp [useFilter]

/-- C7 witness: on the demo manager, "ALL" (case-insensitively "all")
returns the whole filter list, while "year" returns its first exact
match. -/
theorem getFilter_all_or_first_match_witness :
    getFilter demoState "ALL" = Sum.inl demoState.filters
    ∧ getFilter demoState "year"
        = Sum.inr (demoState.filters.find? (fun f => f.name == "year")) :=
  ⟨(getFilter_all_or_first_match demoState "ALL").1 (by decide),
   (getFilter_all_or_first_match demoState "year").2.1 (by decide)⟩

end UseFilter
